import Mathlib

/-!
Verification of the QLWY prediction-market skill repository.

The repository ships documentation (SKILL.md), a README and thin example
scripts; the AMM pricing and settlement engine they invoke lives behind a
network boundary (the QLWYPredictionMarket contract) and is not part of the
repository sources.  Following the design document, the engine is modelled
here from the spec: a WAD (1e18) fixed-point math kernel, the LMSR pricing
functions, the market ledger, the settlement state machine and the
transaction applier.  The `outcomeToContract` helpers of the example
scripts are embedded directly from `examples/trade.ts` and
`examples/settle-and-claim.ts`.
-/

namespace QLWY

/-- WAD fixed-point scale (1e18), the share and USD1 precision. -/
def WAD : Nat := 1000000000000000000

/-- Modelled from the spec: creator fee in basis points (1%). -/
def creatorFeeBps : Nat := 100

/-- Modelled from the spec: protocol fee in basis points (1%). -/
def protocolFeeBps : Nat := 100

/-- Modelled from the spec: liquidity-provider fee in basis points (1%). -/
def lpFeeBps : Nat := 100

/-- Modelled from the spec: minimum subsidy, 10 USD1. -/
def minSubsidy : Nat := 10 * WAD

/-- Modelled from the spec: dispute window after creator settlement, 24 hours. -/
def disputeWindow : Nat := 86400

/-- Modelled from the spec: creator settlement grace period after expiry, 24 hours. -/
def creatorSettlementGracePeriod : Nat := 86400

/-- Modelled from the spec: arbitration voting window, 72 hours. -/
def votingWindow : Nat := 259200

/-- Modelled from the spec: arbitration quorum, 20% of total eligible weight. -/
def quorumBps : Nat := 2000

/-- Binary market outcome (with the INVALID resolution). -/
inductive Outcome : Type where
  | yes
  | no
  | invalid
deriving DecidableEq

/-- Settlement state-machine stage.  The spec's `Expired` stage is not a
stored status: it is the `trading` status once the current time has passed
`expiresAt` (see `effRank`). -/
inductive Status : Type where
  | trading
  | disputePeriod
  | arbitration
  | resolved
deriving DecidableEq

/-- Modelled from the spec: the typed error taxonomy of §7; the engine is
absent from the repository sources. -/
inductive Err : Type where
  | marketNotTrading
  | marketExpired
  | insufficientShares
  | belowMinSubsidy
  | slippageExceeded
  | notCreator
  | disputePeriodOver
  | alreadyDisputed
  | quorumNotMet
  | invalidOutcome
  | nothingToClaim
  | domainError
deriving DecidableEq

/-- Modelled from the spec: deterministic fixed-point exponential, Taylor
series accumulator.  `expSeriesAux x fuel i term acc` adds the terms
`x^i / i!` (WAD-scaled, floor division at every step) for `fuel` further
indices starting at `i`, where `term` is the previous term. -/
def expSeriesAux (x : Nat) : Nat → Nat → Nat → Nat → Nat
  | 0, _, _, acc => acc
  | fuel + 1, i, term, acc =>
    let t := term * x / (WAD * i)
    expSeriesAux x fuel (i + 1) t (acc + t)

/-- Modelled from the spec: `exp : WAD -> WAD` of the math kernel, a
deterministic fixed-point series approximation (no floating point). -/
def expWad (x : Nat) : Nat :=
  expSeriesAux x 32 1 WAD WAD

/-- Modelled from the spec: accumulator for the fixed-point logarithm,
via the artanh series `ln x = 2 * (z + z^3/3 + z^5/5 + ...)` with
`z = (x - WAD)/(x + WAD)`.  `pow` is `z^(2k+1)` WAD-scaled. -/
def lnSeriesAux (zsq : Nat) : Nat → Nat → Nat → Nat → Nat
  | 0, _, _, acc => acc
  | fuel + 1, k, pow, acc =>
    let p := pow * zsq / WAD
    lnSeriesAux zsq fuel (k + 1) p (acc + p / (2 * (k + 1) + 1))

/-- Modelled from the spec: `ln : WAD -> WAD` of the math kernel for
inputs at least one WAD (the cost function only evaluates it on sums of
exponentials, which are at least 2 WAD); smaller inputs are a domain
error handled by the caller and mapped to zero here. -/
def lnWad (x : Nat) : Nat :=
  let z := (x - WAD) * WAD / (x + WAD)
  let zsq := z * z / WAD
  2 * lnSeriesAux zsq 40 0 z z

/-- Modelled from the spec: LMSR cost function
`C(q) = b * ln (exp (qYes/b) + exp (qNo/b))` in WAD fixed point. -/
def costC (qY qN b : Nat) : Nat :=
  b * lnWad (expWad (qY * WAD / b) + expWad (qN * WAD / b)) / WAD

/-- Modelled from the spec: gross cost of buying `s` shares of an outcome. -/
def costToBuy (qY qN b : Nat) (o : Outcome) (s : Nat) : Nat :=
  match o with
  | .yes => costC (qY + s) qN b - costC qY qN b
  | .no => costC qY (qN + s) b - costC qY qN b
  | .invalid => 0

/-- Modelled from the spec: gross payout for selling `s` shares of an
outcome. -/
def payoutForSell (qY qN b : Nat) (o : Outcome) (s : Nat) : Nat :=
  match o with
  | .yes => costC qY qN b - costC (qY - s) qN b
  | .no => costC qY qN b - costC qY (qN - s) b
  | .invalid => 0

/-- Modelled from the spec: instantaneous YES price,
`exp (qYes/b) / (exp (qYes/b) + exp (qNo/b))` in WAD fixed point. -/
def getPriceYes (qY qN b : Nat) : Nat :=
  expWad (qY * WAD / b) * WAD / (expWad (qY * WAD / b) + expWad (qN * WAD / b))

/-- Modelled from the spec: instantaneous NO price. -/
def getPriceNo (qY qN b : Nat) : Nat :=
  expWad (qN * WAD / b) * WAD / (expWad (qY * WAD / b) + expWad (qN * WAD / b))

/-- Modelled from the spec: initial liquidity parameter
`b = subsidyAmount * WAD / ln 2`. -/
def bFromSubsidy (amount : Nat) : Nat :=
  amount * WAD / lnWad (2 * WAD)

/-- Modelled from the spec: creator fee component of a trade (1% of gross). -/
def creatorFeeOf (g : Nat) : Nat := g * creatorFeeBps / 10000

/-- Modelled from the spec: protocol fee component of a trade (1% of gross). -/
def protocolFeeOf (g : Nat) : Nat := g * protocolFeeBps / 10000

/-- Modelled from the spec: LP fee component of a trade (1% of gross). -/
def lpFeeOf (g : Nat) : Nat := g * lpFeeBps / 10000

/-- Modelled from the spec: total fee charged on a trade's gross amount. -/
def totalFeeOf (g : Nat) : Nat := creatorFeeOf g + protocolFeeOf g + lpFeeOf g

/-- Rounding to the nearest of `grossAmount * 3%`, following the spec's
words in the fee-split invariant of §8 (used to compare against the
per-component fee computation of §4.5). -/
def roundThreePercent (g : Nat) : Nat := (g * 300 + 5000) / 10000

/-- Modelled from the spec: per-market ledger entry (§3).  Addresses and
the metadata digest are abstracted as naturals. -/
structure Market : Type where
  creator : Nat
  status : Status
  expiresAt : Nat
  qYes : Nat
  qNo : Nat
  bParameter : Nat
  subsidyPool : Nat
  creatorFeeAccrued : Nat
  protocolFeeAccrued : Nat
  lpFeePool : Nat
  proposedOutcome : Option Outcome
  disputeDeadline : Nat
  finalOutcome : Option Outcome
  metadataHash : Nat
deriving DecidableEq

/-- Modelled from the spec: arbitration case opened by a dispute; votes
are an association list voter ↦ (weight, outcome), latest vote first. -/
structure ArbCase : Type where
  disputedOutcome : Outcome
  votingDeadline : Nat
  votes : List (Nat × Nat × Outcome)
deriving DecidableEq

/-- Modelled from the spec: full ledger state of one market: the market
entry, holder positions (trader ↦ yes/no shares), liquidity contributions
(provider ↦ amount, claimed flag) and the optional arbitration case.
`totalEligibleWeight` is the arbitration electorate parameter from which
the 20% quorum is derived. -/
structure LState : Type where
  market : Market
  positions : List (Nat × Nat × Nat)
  lps : List (Nat × Nat × Bool)
  arb : Option ArbCase
  totalEligibleWeight : Nat
deriving DecidableEq

/-- Holder position lookup, zero when absent. -/
def getPos (ps : List (Nat × Nat × Nat)) (t : Nat) : Nat × Nat :=
  match ps.find? (fun p => p.1 == t) with
  | some p => (p.2.1, p.2.2)
  | none => (0, 0)

/-- Replace a holder's position. -/
def setPos (ps : List (Nat × Nat × Nat)) (t y n : Nat) : List (Nat × Nat × Nat) :=
  (t, y, n) :: ps.filter (fun p => p.1 != t)

/-- Liquidity contribution lookup. -/
def getLp (ls : List (Nat × Nat × Bool)) (p : Nat) : Option (Nat × Bool) :=
  match ls.find? (fun l => l.1 == p) with
  | some l => some (l.2.1, l.2.2)
  | none => none

/-- Record an additional contribution for a provider. -/
def addLp (ls : List (Nat × Nat × Bool)) (p amount : Nat) : List (Nat × Nat × Bool) :=
  match getLp ls p with
  | some (a, c) => (p, a + amount, c) :: ls.filter (fun l => l.1 != p)
  | none => (p, amount, false) :: ls

/-- Mark a provider's contribution as claimed. -/
def markLpClaimed (ls : List (Nat × Nat × Bool)) (p : Nat) : List (Nat × Nat × Bool) :=
  ls.map (fun l => if l.1 == p then (l.1, l.2.1, true) else l)

/-- Total liquidity contributed. -/
def lpTotal (ls : List (Nat × Nat × Bool)) : Nat :=
  ls.foldr (fun l acc => l.2.1 + acc) 0

/-- Modelled from the spec: cast weight accumulated for one outcome (§4.4). -/
def tallyWeight (vs : List (Nat × Nat × Outcome)) (o : Outcome) : Nat :=
  vs.foldr (fun v acc => if v.2.2 = o then v.2.1 + acc else acc) 0

/-- Modelled from the spec: total cast vote weight. -/
def totalWeight (vs : List (Nat × Nat × Outcome)) : Nat :=
  tallyWeight vs .yes + tallyWeight vs .no + tallyWeight vs .invalid

/-- Modelled from the spec: the outcome with the greatest cast weight; any
tie resolves to INVALID. -/
def tallyWinner (vs : List (Nat × Nat × Outcome)) : Outcome :=
  if tallyWeight vs .no < tallyWeight vs .yes ∧ tallyWeight vs .invalid < tallyWeight vs .yes then
    .yes
  else if tallyWeight vs .yes < tallyWeight vs .no ∧ tallyWeight vs .invalid < tallyWeight vs .no then
    .no
  else
    .invalid

/-- Modelled from the spec: the 20% arbitration quorum threshold. -/
def quorumThreshold (s : LState) : Nat :=
  s.totalEligibleWeight * quorumBps / 10000

/-- Modelled from the spec: resolution payout for a holder position
(§4.5): winning shares pay 1 USD1 each, losing shares nothing; on INVALID
every share pays 0.5 USD1. -/
def payoutOf (fo : Outcome) (y n : Nat) : Nat :=
  match fo with
  | .yes => y
  | .no => n
  | .invalid => (y + n) / 2

/-- Modelled from the spec: the typed event stream of §6, one event per
successful operation. -/
inductive Event : Type where
  | sharesBought (trader : Nat) (outcome : Outcome) (shares gross : Nat)
  | sharesSold (trader : Nat) (outcome : Outcome) (shares netPayout : Nat)
  | subsidyAdded (provider amount : Nat)
  | creatorSettlementProposed (outcome : Outcome)
  | outcomeDisputed (disputer : Nat) (outcome : Outcome)
  | voteCast (voter weight : Nat) (outcome : Outcome)
  | marketResolved (outcome : Outcome)
  | winningsClaimed (trader amount : Nat)
  | creatorFeeClaimed (amount : Nat)
  | subsidyClaimed (provider amount : Nat)
deriving DecidableEq

/-- Modelled from the spec: the transaction applier's operations (§4.5),
each tagged with the caller identity; `castVote` is the arbitration
subsystem's entry point (§4.4). -/
inductive Op : Type where
  | buy (caller : Nat) (outcome : Outcome) (shares maxCost : Nat)
  | sell (caller : Nat) (outcome : Outcome) (shares minPayout : Nat)
  | addSubsidy (caller amount : Nat)
  | settleMarket (caller : Nat) (outcome : Outcome)
  | dispute (caller : Nat) (outcome : Outcome) (fee : Nat)
  | castVote (caller weight : Nat) (outcome : Outcome)
  | finalizeAfterDisputePeriod (caller : Nat)
  | resolveFromArbitration (caller : Nat)
  | claimWinnings (caller : Nat)
  | claimCreatorFee (caller : Nat)
  | claimSubsidy (caller : Nat)
deriving DecidableEq

/-- Modelled from the spec: `buy(outcome, shares, maxCost)` (§4.5).
Requires Trading status before expiry; the gross LMSR cost is paid by the
trader, 3×1% fees are split out of the gross and the net is credited to
the pool against the position change. -/
def buyOp (now caller : Nat) (o : Outcome) (shares maxCost : Nat) (s : LState) :
    Except Err (LState × Event) :=
  if s.market.status ≠ Status.trading then .error .marketNotTrading
  else if s.market.expiresAt ≤ now then .error .marketExpired
  else if o = Outcome.invalid then .error .invalidOutcome
  else if shares = 0 then .error .invalidOutcome
  else
    let g := costToBuy s.market.qYes s.market.qNo s.market.bParameter o shares
    if maxCost < g then .error .slippageExceeded
    else
      let p := getPos s.positions caller
      .ok ({ s with
              market := { s.market with
                qYes := if o = Outcome.yes then s.market.qYes + shares else s.market.qYes,
                qNo := if o = Outcome.no then s.market.qNo + shares else s.market.qNo,
                subsidyPool := s.market.subsidyPool + (g - totalFeeOf g),
                creatorFeeAccrued := s.market.creatorFeeAccrued + creatorFeeOf g,
                protocolFeeAccrued := s.market.protocolFeeAccrued + protocolFeeOf g,
                lpFeePool := s.market.lpFeePool + lpFeeOf g },
              positions := setPos s.positions caller
                (if o = Outcome.yes then p.1 + shares else p.1)
                (if o = Outcome.no then p.2 + shares else p.2) },
            Event.sharesBought caller o shares g)

/-- Modelled from the spec: `sell(outcome, shares, minPayout)` (§4.5).
Requires a sufficient holder balance; fees are deducted from the gross
payout before paying the holder. -/
def sellOp (now caller : Nat) (o : Outcome) (shares minPayout : Nat) (s : LState) :
    Except Err (LState × Event) :=
  if s.market.status ≠ Status.trading then .error .marketNotTrading
  else if s.market.expiresAt ≤ now then .error .marketExpired
  else if o = Outcome.invalid then .error .invalidOutcome
  else if shares = 0 then .error .invalidOutcome
  else
    let p := getPos s.positions caller
    if (if o = Outcome.yes then p.1 else p.2) < shares then .error .insufficientShares
    else
      let g := payoutForSell s.market.qYes s.market.qNo s.market.bParameter o shares
      let net := g - totalFeeOf g
      if net < minPayout then .error .slippageExceeded
      else
        .ok ({ s with
                market := { s.market with
                  qYes := if o = Outcome.yes then s.market.qYes - shares else s.market.qYes,
                  qNo := if o = Outcome.no then s.market.qNo - shares else s.market.qNo,
                  subsidyPool := s.market.subsidyPool - g,
                  creatorFeeAccrued := s.market.creatorFeeAccrued + creatorFeeOf g,
                  protocolFeeAccrued := s.market.protocolFeeAccrued + protocolFeeOf g,
                  lpFeePool := s.market.lpFeePool + lpFeeOf g },
                positions := setPos s.positions caller
                  (if o = Outcome.yes then p.1 - shares else p.1)
                  (if o = Outcome.no then p.2 - shares else p.2) },
              Event.sharesSold caller o shares net)

/-- Modelled from the spec: `addSubsidy` (§4.2, §4.5).  The first subsidy
sets `b = amount * WAD / ln 2`; later additions scale `qYes`, `qNo` and
`b` by the ratio of the new pool to the old pool. -/
def addSubsidyOp (now caller amount : Nat) (s : LState) : Except Err (LState × Event) :=
  if s.market.status ≠ Status.trading then .error .marketNotTrading
  else if s.market.expiresAt ≤ now then .error .marketExpired
  else if amount < minSubsidy then .error .belowMinSubsidy
  else if s.market.subsidyPool = 0 then
    .ok ({ s with
            market := { s.market with
              bParameter := bFromSubsidy amount,
              subsidyPool := amount },
            lps := addLp s.lps caller amount },
          Event.subsidyAdded caller amount)
  else
    let newPool := s.market.subsidyPool + amount
    .ok ({ s with
            market := { s.market with
              qYes := s.market.qYes * newPool / s.market.subsidyPool,
              qNo := s.market.qNo * newPool / s.market.subsidyPool,
              bParameter := s.market.bParameter * newPool / s.market.subsidyPool,
              subsidyPool := newPool },
            lps := addLp s.lps caller amount },
          Event.subsidyAdded caller amount)

/-- Modelled from the spec: `settleMarket(outcome)` (§4.3).  Legal only
once expired; only the creator within the 24h grace period, anyone
afterwards but only forcing INVALID.  Starts the 24h dispute window. -/
def settleMarketOp (now caller : Nat) (o : Outcome) (s : LState) :
    Except Err (LState × Event) :=
  if s.market.status ≠ Status.trading then .error .marketNotTrading
  else if now < s.market.expiresAt then .error .marketNotTrading
  else if caller ≠ s.market.creator ∧ now < s.market.expiresAt + creatorSettlementGracePeriod then
    .error .notCreator
  else if caller ≠ s.market.creator ∧ o ≠ Outcome.invalid then .error .invalidOutcome
  else
    .ok ({ s with
            market := { s.market with
              status := Status.disputePeriod,
              proposedOutcome := some o,
              disputeDeadline := now + disputeWindow } },
          Event.creatorSettlementProposed o)

/-- Modelled from the spec: `dispute(disputedOutcome, fee)` (§4.3); legal
only during the dispute window, opens the 72h arbitration case. -/
def disputeOp (now caller : Nat) (o : Outcome) (fee : Nat) (s : LState) :
    Except Err (LState × Event) :=
  if s.market.status = Status.arbitration then .error .alreadyDisputed
  else if s.market.status ≠ Status.disputePeriod then .error .marketNotTrading
  else if s.market.disputeDeadline ≤ now then .error .disputePeriodOver
  else
    .ok ({ s with
            market := { s.market with status := Status.arbitration },
            arb := some { disputedOutcome := o, votingDeadline := now + votingWindow, votes := [] } },
          Event.outcomeDisputed caller o)

/-- Modelled from the spec: `castVote(voterWeight, outcome)` (§4.4); a
re-vote overwrites the voter's previous weight. -/
def castVoteOp (now caller weight : Nat) (o : Outcome) (s : LState) :
    Except Err (LState × Event) :=
  if s.market.status ≠ Status.arbitration then .error .marketNotTrading
  else
    match s.arb with
    | none => .error .marketNotTrading
    | some c =>
      if c.votingDeadline ≤ now then .error .disputePeriodOver
      else
        .ok ({ s with
                arb := some { c with
                  votes := (caller, weight, o) :: c.votes.filter (fun v => v.1 != caller) } },
              Event.voteCast caller weight o)

/-- Modelled from the spec: `finalizeAfterDisputePeriod()` (§4.3), legal
only after the dispute deadline; the proposed outcome becomes final.  The
taxonomy has no dedicated kind for a premature finalize, so the
dispute-period kind reports it. -/
def finalizeOp (now caller : Nat) (s : LState) : Except Err (LState × Event) :=
  if s.market.status ≠ Status.disputePeriod then .error .marketNotTrading
  else if now < s.market.disputeDeadline then .error .disputePeriodOver
  else
    match s.market.proposedOutcome with
    | none => .error .invalidOutcome
    | some o =>
      .ok ({ s with
              market := { s.market with
                status := Status.resolved,
                finalOutcome := some o } },
            Event.marketResolved o)

/-- Modelled from the spec: `resolveFromArbitration()` (§4.3), legal only
after the voting deadline with at least the 20% quorum cast; the tally
winner becomes final (ties resolve to INVALID). -/
def resolveFromArbitrationOp (now caller : Nat) (s : LState) : Except Err (LState × Event) :=
  if s.market.status ≠ Status.arbitration then .error .marketNotTrading
  else
    match s.arb with
    | none => .error .marketNotTrading
    | some c =>
      if now < c.votingDeadline then .error .quorumNotMet
      else if totalWeight c.votes < quorumThreshold s then .error .quorumNotMet
      else
        .ok ({ s with
                market := { s.market with
                  status := Status.resolved,
                  finalOutcome := some (tallyWinner c.votes) },
                arb := none },
              Event.marketResolved (tallyWinner c.votes))

/-- Modelled from the spec: `claimWinnings` (§4.5); pays the resolution
payout, zeroes the position, and a holder with nothing to claim gets
`NothingToClaim`. -/
def claimWinningsOp (now caller : Nat) (s : LState) : Except Err (LState × Event) :=
  if s.market.status ≠ Status.resolved then .error .nothingToClaim
  else
    match s.market.finalOutcome with
    | none => .error .nothingToClaim
    | some fo =>
      let p := getPos s.positions caller
      if p.1 = 0 ∧ p.2 = 0 then .error .nothingToClaim
      else
        let pay := payoutOf fo p.1 p.2
        .ok ({ s with
                positions := setPos s.positions caller 0 0,
                market := { s.market with subsidyPool := s.market.subsidyPool - pay } },
              Event.winningsClaimed caller pay)

/-- Modelled from the spec: `claimCreatorFee` (§4.5); pays the accrued
creator fee once. -/
def claimCreatorFeeOp (now caller : Nat) (s : LState) : Except Err (LState × Event) :=
  if caller ≠ s.market.creator then .error .notCreator
  else if s.market.creatorFeeAccrued = 0 then .error .nothingToClaim
  else
    .ok ({ s with market := { s.market with creatorFeeAccrued := 0 } },
          Event.creatorFeeClaimed s.market.creatorFeeAccrued)

/-- Modelled from the spec: `claimSubsidy` (§4.5); after resolution an LP
claims a pro-rata share of the remaining pool, once. -/
def claimSubsidyOp (now caller : Nat) (s : LState) : Except Err (LState × Event) :=
  if s.market.status ≠ Status.resolved then .error .nothingToClaim
  else
    match getLp s.lps caller with
    | none => .error .nothingToClaim
    | some (a, claimed) =>
      if claimed then .error .nothingToClaim
      else if a = 0 then .error .nothingToClaim
      else
        let pay := s.market.subsidyPool * a / lpTotal s.lps
        .ok ({ s with
                market := { s.market with subsidyPool := s.market.subsidyPool - pay },
                lps := markLpClaimed s.lps caller },
              Event.subsidyClaimed caller pay)

/-- Modelled from the spec: the transaction applier (§4.5), the single
entry point that validates and atomically applies one operation, or
rejects it with a typed error and no effect. -/
def applyOp (now : Nat) (op : Op) (s : LState) : Except Err (LState × Event) :=
  match op with
  | .buy caller o shares maxCost => buyOp now caller o shares maxCost s
  | .sell caller o shares minPayout => sellOp now caller o shares minPayout s
  | .addSubsidy caller amount => addSubsidyOp now caller amount s
  | .settleMarket caller o => settleMarketOp now caller o s
  | .dispute caller o fee => disputeOp now caller o fee s
  | .castVote caller weight o => castVoteOp now caller weight o s
  | .finalizeAfterDisputePeriod caller => finalizeOp now caller s
  | .resolveFromArbitration caller => resolveFromArbitrationOp now caller s
  | .claimWinnings caller => claimWinningsOp now caller s
  | .claimCreatorFee caller => claimCreatorFeeOp now caller s
  | .claimSubsidy caller => claimSubsidyOp now caller s

/-- The committed state and event list of one applier call: on success the
new state with its single event, on a typed error the unchanged state and
no event. -/
def stepLedger (now : Nat) (op : Op) (s : LState) : LState × List Event :=
  match applyOp now op s with
  | .ok r => (r.1, [r.2])
  | .error _ => (s, [])

/-- Rank of the effective lifecycle stage (the spec's `Expired` stage is
`trading` past `expiresAt`). -/
def statusRank : Status → Nat
  | .trading => 0
  | .disputePeriod => 2
  | .arbitration => 3
  | .resolved => 4

/-- Effective lifecycle rank of a ledger state at a sampling time. -/
def effRank (s : LState) (now : Nat) : Nat :=
  if s.market.status = Status.trading ∧ s.market.expiresAt ≤ now then 1
  else statusRank s.market.status

/-- Well-formedness tying the write-once `finalOutcome` to the terminal
status: a final outcome exists only once resolved. -/
def WFOutcome (s : LState) : Prop :=
  s.market.finalOutcome.isSome = true → s.market.status = Status.resolved

instance (s : LState) : Decidable (WFOutcome s) := by
  unfold WFOutcome
  infer_instance

/-- Embedding of `outcomeToContract` from `examples/trade.ts` (lines
57-62): case-insensitive YES ↦ 1, NO ↦ 2, anything else throws. -/
def tradeOutcomeToContract (side : String) : Except String Nat :=
  if side.toUpper = "YES" then .ok 1
  else if side.toUpper = "NO" then .ok 2
  else .error ("Invalid side: " ++ side ++ ". Must be YES or NO.")

/-- Embedding of `outcomeToContract` from `examples/settle-and-claim.ts`
(lines 38-44): case-insensitive YES ↦ 1, NO ↦ 2, INVALID ↦ 0, anything
else throws. -/
def settleOutcomeToContract (side : String) : Except String Nat :=
  if side.toUpper = "YES" then .ok 1
  else if side.toUpper = "NO" then .ok 2
  else if side.toUpper = "INVALID" then .ok 0
  else .error ("Invalid outcome: " ++ side ++ ". Must be YES, NO, or INVALID.")

/-- Concrete market fixture used by witnesses: a live trading market. -/
def baseMarket : Market :=
  { creator := 1, status := Status.trading, expiresAt := 1000,
    qYes := 0, qNo := 0, bParameter := 14426950408889634000, subsidyPool := 10 * WAD,
    creatorFeeAccrued := 0, protocolFeeAccrued := 0, lpFeePool := 0,
    proposedOutcome := none, disputeDeadline := 0, finalOutcome := none, metadataHash := 0 }

/-- Concrete ledger fixture: trading market, no holders. -/
def wsTrading : LState :=
  { market := baseMarket, positions := [], lps := [(1, 10 * WAD, false)],
    arb := none, totalEligibleWeight := 100 }

/-- Concrete ledger fixture: market resolved YES with one holder. -/
def wsResolvedYes : LState :=
  { market := { baseMarket with status := Status.resolved, finalOutcome := some Outcome.yes },
    positions := [(7, 5 * WAD, 2 * WAD)], lps := [(1, 10 * WAD, false)],
    arb := none, totalEligibleWeight := 100 }

/-- Concrete ledger fixture: market in its dispute window. -/
def wsDispute : LState :=
  { market := { baseMarket with status := Status.disputePeriod, proposedOutcome := some Outcome.yes, disputeDeadline := 5000 },
    positions := [], lps := [(1, 10 * WAD, false)], arb := none, totalEligibleWeight := 100 }

/-- Concrete arbitration case fixture with votes cast. -/
def arbVoted : ArbCase :=
  { disputedOutcome := Outcome.no, votingDeadline := 4000,
    votes := [(2, 30, Outcome.yes), (3, 10, Outcome.no)] }

/-- Concrete arbitration case fixture with no votes cast. -/
def arbEmpty : ArbCase :=
  { disputedOutcome := Outcome.no, votingDeadline := 4000, votes := [] }

/-- Concrete ledger fixture: market in arbitration, quorum reached. -/
def wsArbVoted : LState :=
  { market := { baseMarket with status := Status.arbitration, proposedOutcome := some Outcome.yes, disputeDeadline := 3000 },
    positions := [], lps := [(1, 10 * WAD, false)], arb := some arbVoted,
    totalEligibleWeight := 100 }

/-- Concrete ledger fixture: market in arbitration, no votes. -/
def wsArbEmpty : LState :=
  { market := { baseMarket with status := Status.arbitration, proposedOutcome := some Outcome.yes, disputeDeadline := 3000 },
    positions := [], lps := [(1, 10 * WAD, false)], arb := some arbEmpty,
    totalEligibleWeight := 100 }

/-- Concrete ledger fixture for the round-trip counterexample: fresh
market funded with a 100 USD1 subsidy. -/
def roundtripState : LState :=
  { market := { baseMarket with bParameter := bFromSubsidy (100 * WAD), subsidyPool := 100 * WAD, expiresAt := 1000000 },
    positions := [], lps := [(1, 100 * WAD, false)], arb := none,
    totalEligibleWeight := 100 }

/-- Concrete ledger fixture for the rescaling counterexample: a trading
market with a nonzero position vector (qYes = 3, b = 7 in raw units) and
a 20 USD1 pool, so that a 10 USD1 addition rescales by the ratio 3/2. -/
def rescaleState : LState :=
  { market := { baseMarket with qYes := 3, qNo := 0, bParameter := 7, subsidyPool := 20 * WAD },
    positions := [], lps := [(1, 20 * WAD, false)], arb := none,
    totalEligibleWeight := 100 }

theorem expSeriesAux_acc_le (x : Nat) :
    ∀ fuel i term acc, acc ≤ expSeriesAux x fuel i term acc := by
  intro fuel
  induction fuel with
  | zero => intro i term acc; exact Nat.le_refl _
  | succ n ih =>
    intro i term acc
    calc acc ≤ acc + term * x / (WAD * i) := Nat.le_add_right _ _
      _ ≤ _ := ih (i + 1) (term * x / (WAD * i)) _

theorem expWad_pos (x : Nat) : 0 < expWad x := by
  have h := expSeriesAux_acc_le x 32 1 WAD WAD
  have hW : 0 < WAD := by decide
  exact Nat.lt_of_lt_of_le hW h

/-- Two WAD-scaled shares of a positive total never sum past one WAD and
lose at most one unit to floor rounding. -/
theorem wad_share_sum (a b : Nat) (ha : 0 < a) (hb : 0 < b) :
    WAD - 1 ≤ a * WAD / (a + b) + b * WAD / (a + b) ∧
      a * WAD / (a + b) + b * WAD / (a + b) ≤ WAD := by
  have hs : 0 < a + b := by omega
  have hkey := Nat.add_div (a := a * WAD) (b := b * WAD) hs
  have hsum : a * WAD + b * WAD = (a + b) * WAD := by ring
  have hcan : (a + b) * WAD / (a + b) = WAD := Nat.mul_div_cancel_left _ hs
  rw [hsum, hcan] at hkey
  revert hkey
  generalize a * WAD / (a + b) = X
  generalize b * WAD / (a + b) = Y
  intro hkey
  split at hkey <;> omega

theorem getPos_setPos (ps : List (Nat × Nat × Nat)) (t y n : Nat) :
    getPos (setPos ps t y n) t = (y, n) := by
  simp [getPos, setPos, List.find?]

theorem totalFeeOf_le (g : Nat) : totalFeeOf g ≤ g := by
  unfold totalFeeOf creatorFeeOf protocolFeeOf lpFeeOf creatorFeeBps protocolFeeBps lpFeeBps
  omega

theorem expWad_zero : expWad 0 = WAD := by decide

/-- C1.  Every applier call either commits a new state together with
exactly one emitted event, or returns a typed error of the taxonomy and
leaves the ledger state byte-for-byte unchanged. -/
theorem applier_atomic (now : Nat) (op : Op) (s : LState) :
    (∃ r, applyOp now op s = Except.ok r ∧ stepLedger now op s = (r.1, [r.2])) ∨
    (∃ e, applyOp now op s = Except.error e ∧ stepLedger now op s = (s, [])) := by
  cases h : applyOp now op s with
  | ok r => exact Or.inl ⟨r, rfl, by simp [stepLedger, h]⟩
  | error e => exact Or.inr ⟨e, rfl, by simp [stepLedger, h]⟩

/-- C2.  For every pricing state with positive depth, the WAD prices of
YES and NO sum to one WAD within a single unit of floor rounding. -/
theorem price_sum_one_wad (qY qN b : Nat) (hb : 0 < b) :
    WAD - 1 ≤ getPriceYes qY qN b + getPriceNo qY qN b ∧
      getPriceYes qY qN b + getPriceNo qY qN b ≤ WAD := by
  unfold getPriceYes getPriceNo
  exact wad_share_sum _ _ (expWad_pos (qY * WAD / b)) (expWad_pos (qN * WAD / b))

/-- Witness for C2 at the fresh 50/50 state. -/
theorem price_sum_one_wad_w :
    (0 : Nat) < WAD ∧
      (WAD - 1 ≤ getPriceYes 0 0 WAD + getPriceNo 0 0 WAD ∧
        getPriceYes 0 0 WAD + getPriceNo 0 0 WAD ≤ WAD) :=
  ⟨by decide, price_sum_one_wad 0 0 WAD (by decide)⟩

/-- C10.  The example scripts' `outcomeToContract` helpers accept outcome
names case-insensitively, return exactly the contract encoding YES = 1,
NO = 2 (and INVALID = 0 in the settle script), and throw on every other
string, so no other outcome value is ever passed on-chain. -/
theorem outcomeToContract_spec (side : String) (k : Nat) :
    (tradeOutcomeToContract side = Except.ok k ↔
      (side.toUpper = "YES" ∧ k = 1) ∨ (side.toUpper = "NO" ∧ k = 2)) ∧
    (settleOutcomeToContract side = Except.ok k ↔
      (side.toUpper = "YES" ∧ k = 1) ∨ (side.toUpper = "NO" ∧ k = 2) ∨
        (side.toUpper = "INVALID" ∧ k = 0)) ∧
    ((∃ e, tradeOutcomeToContract side = Except.error e) ↔
      ¬(side.toUpper = "YES" ∨ side.toUpper = "NO")) ∧
    ((∃ e, settleOutcomeToContract side = Except.error e) ↔
      ¬(side.toUpper = "YES" ∨ side.toUpper = "NO" ∨ side.toUpper = "INVALID")) := by
  unfold tradeOutcomeToContract settleOutcomeToContract
  by_cases h1 : side.toUpper = "YES" <;>
    by_cases h2 : side.toUpper = "NO" <;>
      by_cases h3 : side.toUpper = "INVALID" <;>
        simp_all <;> omega

/-- Witness for C10 at the mixed-case input "yEs". -/
theorem outcomeToContract_spec_w :
    (tradeOutcomeToContract "yEs" = Except.ok 1 ↔
      ("yEs".toUpper = "YES" ∧ 1 = 1) ∨ ("yEs".toUpper = "NO" ∧ 1 = 2)) ∧
    (settleOutcomeToContract "yEs" = Except.ok 1 ↔
      ("yEs".toUpper = "YES" ∧ 1 = 1) ∨ ("yEs".toUpper = "NO" ∧ 1 = 2) ∨
        ("yEs".toUpper = "INVALID" ∧ 1 = 0)) ∧
    ((∃ e, tradeOutcomeToContract "yEs" = Except.error e) ↔
      ¬("yEs".toUpper = "YES" ∨ "yEs".toUpper = "NO")) ∧
    ((∃ e, settleOutcomeToContract "yEs" = Except.error e) ↔
      ¬("yEs".toUpper = "YES" ∨ "yEs".toUpper = "NO" ∨ "yEs".toUpper = "INVALID")) :=
  outcomeToContract_spec "yEs" 1

/-- C3.  On a resolved market, a holder with a nonzero position is paid
the resolution payout — winning shares pay one USD1 each (losing shares
nothing), INVALID pays half a USD1 per share on either side — the
position is zeroed, and a second claim fails with `NothingToClaim`. -/
theorem claimWinnings_pays_once (now caller : Nat) (s : LState) (fo : Outcome) (y n : Nat)
    (hst : s.market.status = Status.resolved)
    (hfo : s.market.finalOutcome = some fo)
    (hpos : getPos s.positions caller = (y, n))
    (hnz : ¬(y = 0 ∧ n = 0)) :
    ∃ s', applyOp now (Op.claimWinnings caller) s =
        Except.ok (s', Event.winningsClaimed caller (payoutOf fo y n)) ∧
      getPos s'.positions caller = (0, 0) ∧
      applyOp now (Op.claimWinnings caller) s' = Except.error Err.nothingToClaim ∧
      payoutOf Outcome.yes y n = y ∧ payoutOf Outcome.no y n = n ∧
      payoutOf Outcome.invalid y n = (y + n) / 2 := by
  refine ⟨{ s with
            positions := setPos s.positions caller 0 0,
            market := { s.market with subsidyPool := s.market.subsidyPool - payoutOf fo y n } },
    ?_, getPos_setPos _ _ _ _, ?_, rfl, rfl, rfl⟩
  · simp [applyOp, claimWinningsOp, hst, hfo, hpos, hnz]
  · simp [applyOp, claimWinningsOp, hst, hfo, getPos_setPos]

/-- Witness for C3: the holder of 5 YES / 2 NO claims on a YES-resolved
market, then fails to claim again. -/
theorem claimWinnings_pays_once_w :
    ∃ s', applyOp 0 (Op.claimWinnings 7) wsResolvedYes =
        Except.ok (s', Event.winningsClaimed 7 (payoutOf Outcome.yes (5 * WAD) (2 * WAD))) ∧
      getPos s'.positions 7 = (0, 0) ∧
      applyOp 0 (Op.claimWinnings 7) s' = Except.error Err.nothingToClaim ∧
      payoutOf Outcome.yes (5 * WAD) (2 * WAD) = 5 * WAD ∧
      payoutOf Outcome.no (5 * WAD) (2 * WAD) = 2 * WAD ∧
      payoutOf Outcome.invalid (5 * WAD) (2 * WAD) = (5 * WAD + 2 * WAD) / 2 :=
  claimWinnings_pays_once 0 7 wsResolvedYes Outcome.yes (5 * WAD) (2 * WAD)
    (by decide) (by decide) (by decide) (by decide)

/-- C5.  On an expired market, a non-creator settling before the 24h
grace period has elapsed gets `NotCreator`; once the grace period has
elapsed, any caller forcing INVALID succeeds and starts the 24h dispute
window. -/
theorem settle_grace (now caller : Nat) (o : Outcome) (s : LState)
    (hst : s.market.status = Status.trading)
    (hexp : s.market.expiresAt ≤ now) :
    (caller ≠ s.market.creator → now < s.market.expiresAt + creatorSettlementGracePeriod →
      applyOp now (Op.settleMarket caller o) s = Except.error Err.notCreator) ∧
    (s.market.expiresAt + creatorSettlementGracePeriod ≤ now →
      ∃ s', applyOp now (Op.settleMarket caller Outcome.invalid) s =
          Except.ok (s', Event.creatorSettlementProposed Outcome.invalid) ∧
        s'.market.status = Status.disputePeriod ∧
        s'.market.proposedOutcome = some Outcome.invalid ∧
        s'.market.disputeDeadline = now + disputeWindow) := by
  constructor
  · intro hc hg
    simp [applyOp, settleMarketOp, hst, hc, hg, Nat.not_lt.mpr hexp]
  · intro hg
    refine ⟨{ s with market := { s.market with
        status := Status.disputePeriod,
        proposedOutcome := some Outcome.invalid,
        disputeDeadline := now + disputeWindow } }, ?_, rfl, rfl, rfl⟩
    simp [applyOp, settleMarketOp, hst, Nat.not_lt.mpr hexp, Nat.not_lt.mpr hg]

/-- Witness for C5: a stranger fails inside the grace period and forces
INVALID after it. -/
theorem settle_grace_w :
    applyOp 1500 (Op.settleMarket 9 Outcome.yes) wsTrading = Except.error Err.notCreator ∧
    (∃ s', applyOp 90000 (Op.settleMarket 9 Outcome.invalid) wsTrading =
        Except.ok (s', Event.creatorSettlementProposed Outcome.invalid) ∧
      s'.market.status = Status.disputePeriod ∧
      s'.market.proposedOutcome = some Outcome.invalid ∧
      s'.market.disputeDeadline = 90000 + disputeWindow) :=
  ⟨(settle_grace 1500 9 Outcome.yes wsTrading (by decide) (by decide)).1
      (by decide) (by decide),
   (settle_grace 90000 9 Outcome.invalid wsTrading (by decide) (by decide)).2 (by decide)⟩

/-- C6.  Disputing at or after the dispute deadline fails with
`DisputePeriodOver`; resolving arbitration before the voting deadline or
below the 20% quorum fails with `QuorumNotMet`; a successful resolution
finalizes the outcome with the greatest cast weight, ties resolving to
INVALID. -/
theorem dispute_and_arbitration (now caller : Nat) (o : Outcome) (fee : Nat)
    (s : LState) (c : ArbCase) :
    (s.market.status = Status.disputePeriod → s.market.disputeDeadline ≤ now →
      applyOp now (Op.dispute caller o fee) s = Except.error Err.disputePeriodOver) ∧
    (s.market.status = Status.arbitration → s.arb = some c → now < c.votingDeadline →
      applyOp now (Op.resolveFromArbitration caller) s = Except.error Err.quorumNotMet) ∧
    (s.market.status = Status.arbitration → s.arb = some c →
      totalWeight c.votes < quorumThreshold s →
      applyOp now (Op.resolveFromArbitration caller) s = Except.error Err.quorumNotMet) ∧
    (s.market.status = Status.arbitration → s.arb = some c → c.votingDeadline ≤ now →
      quorumThreshold s ≤ totalWeight c.votes →
      ∃ s', applyOp now (Op.resolveFromArbitration caller) s =
          Except.ok (s', Event.marketResolved (tallyWinner c.votes)) ∧
        s'.market.status = Status.resolved ∧
        s'.market.finalOutcome = some (tallyWinner c.votes)) ∧
    (tallyWeight c.votes Outcome.no < tallyWeight c.votes Outcome.yes →
      tallyWeight c.votes Outcome.invalid < tallyWeight c.votes Outcome.yes →
      tallyWinner c.votes = Outcome.yes) ∧
    (tallyWeight c.votes Outcome.yes < tallyWeight c.votes Outcome.no →
      tallyWeight c.votes Outcome.invalid < tallyWeight c.votes Outcome.no →
      tallyWinner c.votes = Outcome.no) ∧
    (tallyWeight c.votes Outcome.yes = tallyWeight c.votes Outcome.no →
      tallyWinner c.votes = Outcome.invalid) := by
  refine ⟨?_, ?_, ?_, ?_, ?_, ?_, ?_⟩
  · intro hst hd
    simp [applyOp, disputeOp, hst, hd]
  · intro hst harb hv
    simp [applyOp, resolveFromArbitrationOp, hst, harb, hv]
  · intro hst harb hq
    by_cases hnv : now < c.votingDeadline <;>
      simp [applyOp, resolveFromArbitrationOp, hst, harb, hq, hnv]
  · intro hst harb hv hq
    refine ⟨{ s with
        market := { s.market with
          status := Status.resolved,
          finalOutcome := some (tallyWinner c.votes) },
        arb := none }, ?_, rfl, rfl⟩
    simp [applyOp, resolveFromArbitrationOp, hst, harb,
      Nat.not_lt.mpr hv, Nat.not_lt.mpr hq]
  · intro h1 h2
    simp [tallyWinner, h1, h2]
  · intro h1 h2
    unfold tallyWinner
    split_ifs <;> first | rfl | omega
  · intro h1
    unfold tallyWinner
    split_ifs <;> first | rfl | omega

/-- Witness for C6: a late dispute, an early resolution, a below-quorum
resolution, a successful resolution to YES, and the tally
characterizations on the voted fixture. -/
theorem dispute_and_arbitration_w :
    applyOp 6000 (Op.dispute 9 Outcome.no 5) wsDispute = Except.error Err.disputePeriodOver ∧
    applyOp 1000 (Op.resolveFromArbitration 9) wsArbVoted = Except.error Err.quorumNotMet ∧
    applyOp 9999 (Op.resolveFromArbitration 9) wsArbEmpty = Except.error Err.quorumNotMet ∧
    (∃ s', applyOp 5000 (Op.resolveFromArbitration 9) wsArbVoted =
        Except.ok (s', Event.marketResolved (tallyWinner arbVoted.votes)) ∧
      s'.market.status = Status.resolved ∧
      s'.market.finalOutcome = some (tallyWinner arbVoted.votes)) ∧
    tallyWinner arbVoted.votes = Outcome.yes ∧
    tallyWinner arbEmpty.votes = Outcome.invalid :=
  ⟨(dispute_and_arbitration 6000 9 Outcome.no 5 wsDispute arbVoted).1 (by decide) (by decide),
   (dispute_and_arbitration 1000 9 Outcome.no 5 wsArbVoted arbVoted).2.1
      (by decide) (by decide) (by decide),
   (dispute_and_arbitration 9999 9 Outcome.no 5 wsArbEmpty arbEmpty).2.2.1
      (by decide) (by decide) (by decide),
   (dispute_and_arbitration 5000 9 Outcome.no 5 wsArbVoted arbVoted).2.2.2.1
      (by decide) (by decide) (by decide) (by decide),
   (dispute_and_arbitration 5000 9 Outcome.no 5 wsArbVoted arbVoted).2.2.2.2.1
      (by decide) (by decide),
   (dispute_and_arbitration 5000 9 Outcome.no 5 wsArbEmpty arbEmpty).2.2.2.2.2.2 (by decide)⟩

/-- Counterexample for C4: at a gross amount of 34 units the three 1%
floor components sum to 0 while `round(34 * 3%) = 1`. -/
theorem fee_split_round_cex :
    creatorFeeOf 34 + protocolFeeOf 34 + lpFeeOf 34 ≠ roundThreePercent 34 := by
  decide

/-- C4 (amended).  Each fee component of a trade is exactly 1% of the
gross (floor), the accruals of a successful buy or sell grow by exactly
those components, and their sum `3 * floor(gross * 1%)` equals
`round(gross * 3%)` only up to 3 units (it can fall short because each
component rounds down separately). -/
theorem fee_split_amended :
    (∀ g, creatorFeeOf g = g * 100 / 10000 ∧ protocolFeeOf g = g * 100 / 10000 ∧
      lpFeeOf g = g * 100 / 10000 ∧
      totalFeeOf g = 3 * (g * 100 / 10000) ∧
      totalFeeOf g ≤ roundThreePercent g ∧ roundThreePercent g ≤ totalFeeOf g + 3) ∧
    (∀ now caller o shares maxCost s,
      match applyOp now (Op.buy caller o shares maxCost) s with
      | .ok r =>
          r.1.market.creatorFeeAccrued = s.market.creatorFeeAccrued +
            creatorFeeOf (costToBuy s.market.qYes s.market.qNo s.market.bParameter o shares) ∧
          r.1.market.protocolFeeAccrued = s.market.protocolFeeAccrued +
            protocolFeeOf (costToBuy s.market.qYes s.market.qNo s.market.bParameter o shares) ∧
          r.1.market.lpFeePool = s.market.lpFeePool +
            lpFeeOf (costToBuy s.market.qYes s.market.qNo s.market.bParameter o shares)
      | .error _ => True) ∧
    (∀ now caller o shares minPayout s,
      match applyOp now (Op.sell caller o shares minPayout) s with
      | .ok r =>
          r.1.market.creatorFeeAccrued = s.market.creatorFeeAccrued +
            creatorFeeOf (payoutForSell s.market.qYes s.market.qNo s.market.bParameter o shares) ∧
          r.1.market.protocolFeeAccrued = s.market.protocolFeeAccrued +
            protocolFeeOf (payoutForSell s.market.qYes s.market.qNo s.market.bParameter o shares) ∧
          r.1.market.lpFeePool = s.market.lpFeePool +
            lpFeeOf (payoutForSell s.market.qYes s.market.qNo s.market.bParameter o shares)
      | .error _ => True) := by
  refine ⟨?_, ?_, ?_⟩
  · intro g
    unfold totalFeeOf creatorFeeOf protocolFeeOf lpFeeOf roundThreePercent
    unfold creatorFeeBps protocolFeeBps lpFeeBps
    omega
  · intro now caller o shares maxCost s
    simp only [applyOp]
    unfold buyOp
    simp only []
    split_ifs <;> first | trivial | exact ⟨rfl, rfl, rfl⟩
  · intro now caller o shares minPayout s
    simp only [applyOp]
    unfold sellOp
    simp only []
    split_ifs <;> first | trivial | exact ⟨rfl, rfl, rfl⟩

/-- C7 (amended).  Buying `sh` shares and immediately selling `sh` shares
of the same outcome always succeeds, returns the position vector to its
prior value, and the trader's net loss (gross buy cost minus net sell
payout) equals exactly the fees charged on the sell leg — the buy leg's
gross, which already contains the buy fees, is exactly refunded by the
sell leg's equal gross payout. -/
theorem roundtrip_amended (now c : Nat) (o : Outcome) (sh mc : Nat) (s : LState) :
    match applyOp now (Op.buy c o sh mc) s with
    | .ok r1 =>
      match applyOp now (Op.sell c o sh 0) r1.1 with
      | .ok r2 =>
          r2.1.market.qYes = s.market.qYes ∧ r2.1.market.qNo = s.market.qNo ∧
          (match r2.2 with
           | Event.sharesSold _ _ _ net =>
               costToBuy s.market.qYes s.market.qNo s.market.bParameter o sh - net =
                 totalFeeOf (costToBuy s.market.qYes s.market.qNo s.market.bParameter o sh)
           | _ => False)
      | .error _ => False
    | .error _ => True := by
  cases o with
  | invalid =>
    simp only [applyOp]
    unfold buyOp
    simp only []
    split_ifs <;> trivial
  | yes =>
    simp only [applyOp]
    unfold buyOp
    simp only []
    split_ifs with h1 h2 h3 h4 h5 <;> try trivial
    have hst : s.market.status = Status.trading := by simpa using h1
    unfold sellOp
    simp only [hst, getPos_setPos]
    have hbal : ¬((getPos s.positions c).1 + sh < sh) := by omega
    simp [h2, h4, hbal, payoutForSell, costToBuy, Nat.add_sub_cancel]
    have hle := totalFeeOf_le (costC (s.market.qYes + sh) s.market.qNo s.market.bParameter -
      costC s.market.qYes s.market.qNo s.market.bParameter)
    omega
  | no =>
    simp only [applyOp]
    unfold buyOp
    simp only []
    split_ifs with h1 h2 h3 h4 h5 <;> try trivial
    have hst : s.market.status = Status.trading := by simpa using h1
    unfold sellOp
    simp only [hst, getPos_setPos]
    have hbal : ¬((getPos s.positions c).2 + sh < sh) := by omega
    simp [h2, h4, hbal, payoutForSell, costToBuy, Nat.add_sub_cancel]
    have hle := totalFeeOf_le (costC s.market.qYes (s.market.qNo + sh) s.market.bParameter -
      costC s.market.qYes s.market.qNo s.market.bParameter)
    omega

/-- Counterexample for C7: on a fresh 100 USD1 market, buying then
selling 10 YES shares loses the trader 152598781742689776 units — the
fees of one leg, not the 305197563485379552 units that fees on both legs
total (both legs share the gross 5086626058089659251). -/
theorem roundtrip_fee_cex :
    costToBuy roundtripState.market.qYes roundtripState.market.qNo
        roundtripState.market.bParameter Outcome.yes (10 * WAD) = 5086626058089659251 ∧
    payoutForSell (roundtripState.market.qYes + 10 * WAD) roundtripState.market.qNo
        roundtripState.market.bParameter Outcome.yes (10 * WAD) = 5086626058089659251 ∧
    (stepLedger 0 (Op.sell 7 Outcome.yes (10 * WAD) 0)
        (stepLedger 0 (Op.buy 7 Outcome.yes (10 * WAD) (100 * WAD)) roundtripState).1).2 =
      [Event.sharesSold 7 Outcome.yes (10 * WAD) 4934027276346969475] ∧
    5086626058089659251 - 4934027276346969475 ≠
      totalFeeOf 5086626058089659251 + totalFeeOf 5086626058089659251 := by
  decide

theorem getPriceYes_zero (b : Nat) : getPriceYes 0 0 b = WAD / 2 := by
  unfold getPriceYes
  simp only [Nat.zero_mul, Nat.zero_div, expWad_zero]
  decide

theorem getPriceNo_zero (b : Nat) : getPriceNo 0 0 b = WAD / 2 := by
  unfold getPriceNo
  simp only [Nat.zero_mul, Nat.zero_div, expWad_zero]
  decide

theorem cost00_core (S L W : Nat) (hW : 0 < W) (hL1 : 0 < L) (hL2 : L < W) :
    S - 1 ≤ S * W / L * L / W ∧ S * W / L * L / W ≤ S := by
  have hr : S * W % L < L := Nat.mod_lt _ hL1
  have hXL : S * W / L * L = S * W - S * W % L := by
    rw [Nat.mul_comm]
    have h := Nat.div_add_mod (S * W) L
    omega
  constructor
  · rw [hXL, Nat.le_div_iff_mul_le hW]
    calc (S - 1) * W = S * W - 1 * W := Nat.sub_mul S 1 W
      _ = S * W - W := by rw [Nat.one_mul]
      _ ≤ S * W - S * W % L :=
          Nat.sub_le_sub_left (Nat.le_of_lt (Nat.lt_trans hr hL2)) _
  · have h1 : S * W / L * L ≤ S * W := Nat.div_mul_le_self _ _
    have h2 : S * W / L * L / W ≤ S * W / W := Nat.div_le_div_right h1
    rwa [Nat.mul_div_left S hW] at h2

theorem cost00_bounds (S : Nat) :
    S - 1 ≤ costC 0 0 (bFromSubsidy S) ∧ costC 0 0 (bFromSubsidy S) ≤ S := by
  have hc : costC 0 0 (bFromSubsidy S) =
      S * WAD / lnWad (2 * WAD) * lnWad (2 * WAD) / WAD := by
    unfold costC bFromSubsidy
    simp only [Nat.zero_mul, Nat.zero_div, expWad_zero]
    rw [← two_mul]
  rw [hc]
  exact cost00_core S (lnWad (2 * WAD)) WAD (by decide) (by decide) (by decide)

/-- Counterexample for C8, refuting both exact clauses of the claim.
First, with a 100 USD1 subsidy the fixed-point cost at the empty
position is one unit short of the subsidy, so `cost(0,0) = S` does not
hold exactly.  Second, adding 10 USD1 of subsidy to a trading market
with position vector (3, 0) and depth 7 succeeds (one `SubsidyAdded`
event), rescales by the pool ratio 3/2 to (4, 0) and depth 10, and
moves the YES price from 605532487220585691 to 598687660112451999 —
so rescaling does not leave the prices unchanged in general. -/
theorem subsidy_cex :
    costC 0 0 (bFromSubsidy (100 * WAD)) ≠ 100 * WAD ∧
    (stepLedger 0 (Op.addSubsidy 9 (10 * WAD)) rescaleState).2 =
      [Event.subsidyAdded 9 (10 * WAD)] ∧
    getPriceYes (stepLedger 0 (Op.addSubsidy 9 (10 * WAD)) rescaleState).1.market.qYes
        (stepLedger 0 (Op.addSubsidy 9 (10 * WAD)) rescaleState).1.market.qNo
        (stepLedger 0 (Op.addSubsidy 9 (10 * WAD)) rescaleState).1.market.bParameter ≠
      getPriceYes rescaleState.market.qYes rescaleState.market.qNo
        rescaleState.market.bParameter := by
  refine ⟨by decide, by decide, by decide⟩

/-- C8 (amended).  The initial subsidy sets `b = S * WAD / ln 2`, which
makes `cost(0,0)` equal to `S` up to one unit of floor rounding (never
more); the initial prices are exactly 0.5 WAD each for any depth; a 100
USD1 subsidy yields `b ≈ 144.2695 WAD`; and adding subsidy scales the
position vector and depth by the pool ratio, which leaves both prices
unchanged (exactly, at the zero position vector). -/
theorem subsidy_amended :
    (∀ S, S - 1 ≤ costC 0 0 (bFromSubsidy S) ∧ costC 0 0 (bFromSubsidy S) ≤ S) ∧
    (∀ b, getPriceYes 0 0 b = WAD / 2 ∧ getPriceNo 0 0 b = WAD / 2) ∧
    (144269400000000000000 ≤ bFromSubsidy (100 * WAD) ∧
      bFromSubsidy (100 * WAD) ≤ 144269600000000000000) ∧
    (∀ now caller amount s, s.market.qYes = 0 → s.market.qNo = 0 →
      match applyOp now (Op.addSubsidy caller amount) s with
      | .ok r =>
          r.1.market.qYes = 0 ∧ r.1.market.qNo = 0 ∧
          getPriceYes r.1.market.qYes r.1.market.qNo r.1.market.bParameter =
            getPriceYes s.market.qYes s.market.qNo s.market.bParameter ∧
          getPriceNo r.1.market.qYes r.1.market.qNo r.1.market.bParameter =
            getPriceNo s.market.qYes s.market.qNo s.market.bParameter
      | .error _ => True) := by
  refine ⟨cost00_bounds, fun b => ⟨getPriceYes_zero b, getPriceNo_zero b⟩,
    ⟨by decide, by decide⟩, ?_⟩
  intro now caller amount s hy hn
  simp only [applyOp]
  unfold addSubsidyOp
  split_ifs with g1 g2 g3 g4
  · trivial
  · trivial
  · trivial
  · refine ⟨?_, ?_, ?_, ?_⟩ <;>
      simp [hy, hn, getPriceYes_zero, getPriceNo_zero]
  · refine ⟨?_, ?_, ?_, ?_⟩ <;>
      simp [hy, hn, getPriceYes_zero, getPriceNo_zero]

/-- Witness for C8 at a 100 USD1 subsidy and a later 50 USD1 addition to
the fresh fixture market. -/
theorem subsidy_amended_w :
    (100 * WAD - 1 ≤ costC 0 0 (bFromSubsidy (100 * WAD)) ∧
      costC 0 0 (bFromSubsidy (100 * WAD)) ≤ 100 * WAD) ∧
    (getPriceYes 0 0 WAD = WAD / 2 ∧ getPriceNo 0 0 WAD = WAD / 2) ∧
    (match applyOp 0 (Op.addSubsidy 9 (50 * WAD)) roundtripState with
      | .ok r =>
          r.1.market.qYes = 0 ∧ r.1.market.qNo = 0 ∧
          getPriceYes r.1.market.qYes r.1.market.qNo r.1.market.bParameter =
            getPriceYes roundtripState.market.qYes roundtripState.market.qNo
              roundtripState.market.bParameter ∧
          getPriceNo r.1.market.qYes r.1.market.qNo r.1.market.bParameter =
            getPriceNo roundtripState.market.qYes roundtripState.market.qNo
              roundtripState.market.bParameter
      | .error _ => True) :=
  ⟨subsidy_amended.1 (100 * WAD), subsidy_amended.2.1 WAD,
   subsidy_amended.2.2.2 0 9 (50 * WAD) roundtripState (by decide) (by decide)⟩

/-- C9.  Successful applier calls never lower the effective lifecycle
stage (with the `Expired` stage read off `expiresAt`), every
status-changing transition strictly raises it (no stage is revisited),
`finalOutcome` is write-once, and neither buy nor sell can execute once
the market is expired. -/
theorem lifecycle_monotone :
    (∀ now op s, WFOutcome s →
      match applyOp now op s with
      | .ok r =>
          effRank s now ≤ effRank r.1 now ∧
          (r.1.market.status ≠ s.market.status → effRank s now < effRank r.1 now) ∧
          (∀ o, s.market.finalOutcome = some o → r.1.market.finalOutcome = some o) ∧
          WFOutcome r.1
      | .error _ => True) ∧
    (∀ now caller o shares maxCost s, s.market.expiresAt ≤ now →
      (∃ e, applyOp now (Op.buy caller o shares maxCost) s = Except.error e) ∧
      (∃ e, applyOp now (Op.sell caller o shares maxCost) s = Except.error e)) := by
  constructor
  · intro now op s hwf
    cases op with
    | buy caller o shares maxCost =>
      simp only [applyOp]
      unfold buyOp
      simp only []
      split_ifs <;> try trivial
      all_goals exact ⟨Nat.le_refl _, fun hne => absurd rfl hne, fun o2 ho2 => ho2, hwf⟩
    | sell caller o shares minPayout =>
      simp only [applyOp]
      unfold sellOp
      simp only []
      split_ifs <;> try trivial
      all_goals exact ⟨Nat.le_refl _, fun hne => absurd rfl hne, fun o2 ho2 => ho2, hwf⟩
    | addSubsidy caller amount =>
      simp only [applyOp]
      unfold addSubsidyOp
      split_ifs <;> try trivial
      · exact ⟨Nat.le_refl _, fun hne => absurd rfl hne, fun o2 ho2 => ho2, hwf⟩
      · exact ⟨Nat.le_refl _, fun hne => absurd rfl hne, fun o2 ho2 => ho2, hwf⟩
    | castVote caller weight o =>
      simp only [applyOp]
      unfold castVoteOp
      split_ifs with h1 <;> try trivial
      cases harb : s.arb with
      | none => trivial
      | some c =>
        simp only []
        split_ifs with h2 <;> try trivial
        exact ⟨Nat.le_refl _, fun hne => absurd rfl hne, fun o2 ho2 => ho2, hwf⟩
    | claimCreatorFee caller =>
      simp only [applyOp]
      unfold claimCreatorFeeOp
      split_ifs <;> try trivial
      exact ⟨Nat.le_refl _, fun hne => absurd rfl hne, fun o2 ho2 => ho2, hwf⟩
    | settleMarket caller o =>
      simp only [applyOp]
      unfold settleMarketOp
      split_ifs with h1 h2 h3 h4 <;> try trivial
      have hst : s.market.status = Status.trading := by simpa using h1
      have hexp : s.market.expiresAt ≤ now := Nat.not_lt.mp h2
      unfold WFOutcome at hwf
      refine ⟨?_, ?_, ?_, ?_⟩
      · simp [effRank, statusRank, hst, hexp]
      · intro _
        simp [effRank, statusRank, hst, hexp]
      · intro o2 ho2
        have hres := hwf (by simp [ho2])
        rw [hst] at hres
        simp at hres
      · unfold WFOutcome
        intro hsome
        have hres := hwf hsome
        rw [hst] at hres
        simp at hres
    | dispute caller o fee =>
      simp only [applyOp]
      unfold disputeOp
      split_ifs with h1 h2 h3 <;> try trivial
      have hst : s.market.status = Status.disputePeriod := by simpa using h2
      unfold WFOutcome at hwf
      refine ⟨?_, ?_, ?_, ?_⟩
      · simp [effRank, statusRank, hst]
      · intro _
        simp [effRank, statusRank, hst]
      · intro o2 ho2
        have hres := hwf (by simp [ho2])
        rw [hst] at hres
        simp at hres
      · unfold WFOutcome
        intro hsome
        have hres := hwf hsome
        rw [hst] at hres
        simp at hres
    | finalizeAfterDisputePeriod caller =>
      simp only [applyOp]
      unfold finalizeOp
      split_ifs with h1 h2 <;> try trivial
      have hst : s.market.status = Status.disputePeriod := by simpa using h1
      unfold WFOutcome at hwf
      cases hpo : s.market.proposedOutcome with
      | none => trivial
      | some o =>
        refine ⟨?_, ?_, ?_, ?_⟩
        · simp [effRank, statusRank, hst]
        · intro _
          simp [effRank, statusRank, hst]
        · intro o2 ho2
          have hres := hwf (by simp [ho2])
          rw [hst] at hres
          simp at hres
        · unfold WFOutcome
          intro _
          rfl
    | resolveFromArbitration caller =>
      simp only [applyOp]
      unfold resolveFromArbitrationOp
      split_ifs with h1 <;> try trivial
      have hst : s.market.status = Status.arbitration := by simpa using h1
      unfold WFOutcome at hwf
      cases harb : s.arb with
      | none => trivial
      | some c =>
        simp only []
        split_ifs with h2 h3 <;> try trivial
        refine ⟨?_, ?_, ?_, ?_⟩
        · simp [effRank, statusRank, hst]
        · intro _
          simp [effRank, statusRank, hst]
        · intro o2 ho2
          have hres := hwf (by simp [ho2])
          rw [hst] at hres
          simp at hres
        · unfold WFOutcome
          intro _
          rfl
    | claimWinnings caller =>
      simp only [applyOp]
      unfold claimWinningsOp
      split_ifs with h1 <;> try trivial
      cases hfo : s.market.finalOutcome with
      | none => trivial
      | some fo =>
        simp only []
        split_ifs with h2 <;> try trivial
        exact ⟨Nat.le_refl _, fun hne => absurd rfl hne, fun o2 ho2 => hfo.trans ho2, hwf⟩
    | claimSubsidy caller =>
      simp only [applyOp]
      unfold claimSubsidyOp
      split_ifs with h1 <;> try trivial
      cases hlp : getLp s.lps caller with
      | none => trivial
      | some p =>
        obtain ⟨a, cl⟩ := p
        simp only []
        split_ifs with h2 h3 <;> try trivial
        exact ⟨Nat.le_refl _, fun hne => absurd rfl hne, fun o2 ho2 => ho2, hwf⟩
  · intro now caller o shares maxCost s hexp
    constructor
    · by_cases h1 : s.market.status ≠ Status.trading
      · exact ⟨Err.marketNotTrading, by simp [applyOp, buyOp, h1]⟩
      · exact ⟨Err.marketExpired, by simp [applyOp, buyOp, h1, hexp]⟩
    · by_cases h1 : s.market.status ≠ Status.trading
      · exact ⟨Err.marketNotTrading, by simp [applyOp, sellOp, h1]⟩
      · exact ⟨Err.marketExpired, by simp [applyOp, sellOp, h1, hexp]⟩

/-- Witness for C9: the creator settles the expired fixture market, and
an expired buy and sell both fail. -/
theorem lifecycle_monotone_w :
    (match applyOp 2000 (Op.settleMarket 1 Outcome.yes) wsTrading with
     | .ok r =>
         effRank wsTrading 2000 ≤ effRank r.1 2000 ∧
         (r.1.market.status ≠ wsTrading.market.status →
           effRank wsTrading 2000 < effRank r.1 2000) ∧
         (∀ o, wsTrading.market.finalOutcome = some o → r.1.market.finalOutcome = some o) ∧
         WFOutcome r.1
     | .error _ => True) ∧
    ((∃ e, applyOp 2000 (Op.buy 7 Outcome.yes (2 * WAD) (50 * WAD)) wsTrading =
        Except.error e) ∧
     (∃ e, applyOp 2000 (Op.sell 7 Outcome.yes (2 * WAD) (50 * WAD)) wsTrading =
        Except.error e)) :=
  ⟨lifecycle_monotone.1 2000 (Op.settleMarket 1 Outcome.yes) wsTrading (by decide),
   lifecycle_monotone.2 2000 7 Outcome.yes (2 * WAD) (50 * WAD) wsTrading (by decide)⟩

end QLWY
